import Mathlib

/-!
Verification of the real-time fan-out core of the repository:
* the bounded replayable event log and stream sessions
  (src/resources/system-design/server-sent-events/implementation/python/main.py), and
* the websocket connection manager (registry, rooms, broadcaster)
  (src/resources/system-design/websocket/implementation/python/main.py).

The Python code is shallowly embedded: the module-level mutable state becomes
explicit state records, loops become structural recursion / folds, exceptions
become explicit outcome values, and the nondeterministic payloads (timestamps,
random values) become parameters.
-/

namespace SSE

/-- One entry of `event_history`: the dict `{'id': ..., 'type': ..., 'data': ...}`
built at main.py lines 72-76.  The JSON payload is abstracted to a string. -/
structure Event where
  id : Nat
  type : String
  data : String
deriving DecidableEq

/-- The module-level mutable state of the SSE module: `event_id_counter` and
`event_history` (main.py lines 23-24). -/
structure LogState where
  event_id_counter : Nat
  event_history : List Event
deriving DecidableEq

/-- The state at module load: counter 0, empty history. -/
def initLog : LogState := ⟨0, []⟩

/-- One append to the event log: the body of the live loop that stores an event
(main.py lines 64-80): increment `event_id_counter`, append the event dict to
`event_history`, and `pop(0)` when the length now exceeds 100. -/
def appendEvent (st : LogState) (payload : String) : LogState :=
  let next := st.event_id_counter + 1
  let h := st.event_history ++ [⟨next, "update", payload⟩]
  ⟨next, if 100 < h.length then h.tail else h⟩

/-- A whole sequence of appends starting from the initial (empty) state. -/
def appendAll (ps : List String) : LogState := ps.foldl appendEvent initLog

/-- The replay read `[e for e in event_history if e['id'] > last_id]`
(main.py line 42).  `last_id` comes from Python `int(...)`, hence `Int`. -/
def sinceLog (st : LogState) (last_id : Int) : List Event :=
  st.event_history.filter (fun e => last_id < (e.id : Int))

/-- The invariant characterising every state reachable by appends alone:
the history holds the last `min c 100` assigned ids, consecutively. -/
def LogInv (st : LogState) : Prop :=
  st.event_history.map Event.id
    = List.range' (st.event_id_counter + 1 - min st.event_id_counter 100)
        (min st.event_id_counter 100)

theorem logInv_init : LogInv initLog := by
  simp [LogInv, initLog]

theorem logInv_step (st : LogState) (p : String) (h : LogInv st) :
    LogInv (appendEvent st p) := by
  unfold LogInv at h ⊢
  set c := st.event_id_counter with hc
  have hlen : st.event_history.length = min c 100 := by
    have := congrArg List.length h
    simpa using this
  by_cases hle : c < 100
  · have hmin : min c 100 = c := by omega
    have hmin' : min (c + 1) 100 = c + 1 := by omega
    have hnotp : ¬ 100 < (st.event_history ++ [(⟨c + 1, "update", p⟩ : Event)]).length := by
      simp [hlen, hmin]; omega
    have hgoal : appendEvent st p
        = ⟨c + 1, st.event_history ++ [(⟨c + 1, "update", p⟩ : Event)]⟩ := by
      simp only [appendEvent, ← hc]
      rw [if_neg hnotp]
    rw [hgoal]
    simp only [List.map_append, List.map_cons, List.map_nil]
    rw [h, hmin, hmin']
    have h1 : c + 1 - c = 1 := by omega
    have h2 : c + 1 + 1 - (c + 1) = 1 := by omega
    rw [h1, h2]
    have := List.range'_1_concat 1 c
    simpa [Nat.add_comm] using this.symm
  · have hmin : min c 100 = 100 := by omega
    have hmin' : min (c + 1) 100 = 100 := by omega
    have hp : 100 < (st.event_history ++ [(⟨c + 1, "update", p⟩ : Event)]).length := by
      simp [hlen, hmin]
    have hne : st.event_history ≠ [] := by
      intro hnil; rw [hnil] at hlen; simp [hmin] at hlen
    have hgoal : appendEvent st p
        = ⟨c + 1, (st.event_history ++ [(⟨c + 1, "update", p⟩ : Event)]).tail⟩ := by
      simp only [appendEvent, ← hc]
      rw [if_pos hp]
    rw [hgoal]
    rw [List.tail_append_of_ne_nil hne, List.map_append, List.map_cons, List.map_nil]
    have htail : st.event_history.tail.map Event.id
        = List.range' (c + 1 - 100 + 1) 99 := by
      have hmap : st.event_history.map Event.id = List.range' (c + 1 - 100) 100 := by
        rw [h, hmin]
      have hx : (st.event_history.map Event.id).tail = List.range' (c + 1 - 100 + 1) 99 := by
        rw [hmap]
        have h100 : (100 : Nat) = 99 + 1 := by omega
        rw [h100, List.range'_succ]
        rfl
      rw [← hx, List.map_tail]
    rw [htail, hmin']
    have e1 : c + 1 - 100 + 1 = c + 1 + 1 - 100 := by omega
    have e2 : (c + 1 + 1 - 100) + 99 = c + 1 := by omega
    have h99 : (100 : Nat) = 99 + 1 := by omega
    rw [e1, h99, List.range'_1_concat (c + 1 + 1 - 100) 99, e2]

theorem logInv_appendFold (ps : List String) (st : LogState) (h : LogInv st) :
    LogInv (ps.foldl appendEvent st) := by
  induction ps generalizing st with
  | nil => simpa using h
  | cons p ps ih => exact ih _ (logInv_step st p h)

theorem counter_appendFold (ps : List String) (st : LogState) :
    (ps.foldl appendEvent st).event_id_counter = st.event_id_counter + ps.length := by
  induction ps generalizing st with
  | nil => simp
  | cons p ps ih =>
    simp only [List.foldl_cons, ih, List.length_cons]
    simp [appendEvent]
    omega

theorem appendAll_counter (ps : List String) :
    (appendAll ps).event_id_counter = ps.length := by
  simpa [appendAll, initLog] using counter_appendFold ps initLog

theorem appendAll_ids (ps : List String) :
    (appendAll ps).event_history.map Event.id
      = List.range' (ps.length + 1 - min ps.length 100) (min ps.length 100) := by
  have h := logInv_appendFold ps initLog logInv_init
  unfold LogInv at h
  have hc : (List.foldl appendEvent initLog ps).event_id_counter = ps.length := by
    simpa [initLog] using counter_appendFold ps initLog
  rw [hc] at h
  exact h

/-- One item yielded by a stream session.  The source yields the textual SSE
wire framing in several `yield` statements per event; a `Frame.event` stands
for the `id:`/`event:`/`data:` triple and `Frame.comment` for a `:`-only
keep-alive line. -/
inductive Frame where
  | event (id : Nat) (etype : String) (data : String)
  | comment (text : String)
deriving DecidableEq

/-- Numeric value of a string of decimal digits. -/
def digitsVal (cs : List Char) : Nat :=
  cs.foldl (fun n c => 10 * n + (c.toNat - 48)) 0

/-- Strip leading and trailing whitespace from a character list. -/
def pyStrip (cs : List Char) : List Char :=
  ((cs.dropWhile Char.isWhitespace).reverse.dropWhile Char.isWhitespace).reverse

/-- Python `int(str)` on the cursor string (main.py line 41): optional
surrounding whitespace, optional sign, then at least one ASCII digit;
anything else raises `ValueError`, modelled as `none`.  (Pythonic extras such
as underscores or non-ASCII digits are outside the inputs this server sees
and are modelled as failures as well.) -/
def parsePyInt (s : String) : Option Int :=
  match pyStrip s.toList with
  | [] => none
  | '+' :: rest =>
      if rest ≠ [] ∧ rest.all Char.isDigit then some (digitsVal rest : Int) else none
  | '-' :: rest =>
      if rest ≠ [] ∧ rest.all Char.isDigit then some (-(digitsVal rest : Int)) else none
  | cs =>
      if cs.all Char.isDigit then some (digitsVal cs : Int) else none

/-- The replay block of `event_generator` (main.py lines 38-49): when a truthy
`last_event_id` is supplied and parses as an int, the events of the history
with larger id are yielded; a `ValueError` is caught and replay is skipped. -/
def replayEvents (st : LogState) (last_event_id : Option String) : List Event :=
  match last_event_id with
  | none => []
  | some s =>
      if s = "" then []
      else
        match parsePyInt s with
        | none => []
        | some n => sinceLog st n

/-- The deterministic opening of `event_generator` (main.py lines 38-55):
the replayed events, followed by the synthetic `connected` event, which
increments the global `event_id_counter` but is not stored in the history.
Returns the yielded frames and the updated module state. -/
def sessionOpen (st : LogState) (last_event_id : Option String) :
    List Frame × LogState :=
  let replayed := (replayEvents st last_event_id).map
    (fun e => Frame.event e.id e.type e.data)
  let c := st.event_id_counter + 1
  (replayed ++ [Frame.event c "connected" "Connected to SSE stream"],
   { st with event_id_counter := c })

/-- One iteration of the live loop of `event_generator` (main.py lines 58-89):
append a freshly generated event to the log, yield it, and additionally yield
the `: heartbeat` comment frame when the counter is divisible by 15.  The
generated payload (timestamp / random value) is a parameter. -/
def liveTick (st : LogState) (payload : String) : List Frame × LogState :=
  let st' := appendEvent st payload
  let frames :=
    if st'.event_id_counter % 15 = 0 then
      [Frame.event st'.event_id_counter "update" payload, Frame.comment " heartbeat"]
    else
      [Frame.event st'.event_id_counter "update" payload]
  (frames, st')

/-- Several live iterations in sequence, accumulating the yielded frames. -/
def runTicks (st : LogState) (ps : List String) : List Frame × LogState :=
  ps.foldl (fun acc p =>
    let r := liveTick acc.2 p
    (acc.1 ++ r.1, r.2)) ([], st)

/-- A finite prefix of a whole stream session: the opening (replay plus
`connected`) followed by `ps.length` live ticks. -/
def sessionRun (st : LogState) (last_event_id : Option String) (ps : List String) :
    List Frame × LogState :=
  let opened := sessionOpen st last_event_id
  let live := runTicks opened.2 ps
  (opened.1 ++ live.1, live.2)

theorem foldr_max_range' (s m : Nat) :
    (List.range' s (m + 1)).foldr max 0 = s + m := by
  induction m generalizing s with
  | zero => simp
  | succ m ih =>
    rw [List.range'_succ]
    simp only [List.foldr_cons]
    rw [ih (s + 1)]
    rw [Nat.max_eq_right (by omega)]
    omega

theorem appendEvent_getLast (st : LogState) (p : String) :
    (appendEvent st p).event_history.getLast?
      = some ⟨st.event_id_counter + 1, "update", p⟩ := by
  simp only [appendEvent]
  split
  · next hlen =>
    have hne : st.event_history ≠ [] := by
      intro h0
      rw [h0] at hlen
      simp at hlen
    rw [List.tail_append_of_ne_nil hne]
    exact List.getLast?_concat _
  · exact List.getLast?_concat _

theorem appendAll_length (qs : List String) :
    (appendAll qs).event_history.length = min qs.length 100 := by
  have h := congrArg List.length (appendAll_ids qs)
  simpa using h

end SSE

namespace WS

/-- The mutable state of `ConnectionManager` (main.py lines 24-29):
`active_connections` is a dict keyed by client id (insertion-ordered, so a
list of the keys; the websocket handles themselves are abstracted into the
`fails` transport oracle passed to each operation), and `rooms` maps a room
name to its member set (an association list; the member list has set
semantics). -/
structure ManagerState where
  active_connections : List String
  rooms : List (String × List String)
deriving DecidableEq

/-- `ConnectionManager.disconnect` (main.py lines 38-45): delete the id from
`active_connections` if present and `discard` it from every room. -/
def disconnect (st : ManagerState) (client_id : String) : ManagerState :=
  { active_connections := st.active_connections.filter (fun x => x ≠ client_id),
    rooms := st.rooms.map (fun r => (r.1, r.2.filter (fun x => x ≠ client_id))) }

/-- Outcome of a personal send, distinguishing the spec vocabulary
(`delivered` / `dead`) from what the code actually does: `raised` models the
`send_json` exception propagating to the caller, `skipped` the silent no-op
when the id is not registered. -/
inductive SendOutcome where
  | delivered
  | dead
  | raised
  | skipped
deriving DecidableEq

/-- `ConnectionManager.send_personal_message` (main.py lines 47-50): if the id
is registered, `await ...send_json(message)` — which raises on a dead
transport, with no `try`/`except` — otherwise do nothing.  The function body
never mutates the state, so the state is returned unchanged in every case. -/
def send_personal_message (st : ManagerState) (fails : String → Bool)
    (client_id : String) : SendOutcome × ManagerState :=
  if client_id ∈ st.active_connections then
    if fails client_id then (SendOutcome.raised, st) else (SendOutcome.delivered, st)
  else (SendOutcome.skipped, st)

/-- The `for` loop of `ConnectionManager.broadcast` (main.py lines 56-63),
returning (attempted ids, delivered ids, `disconnected` list), each in
iteration order: skip the excluded id, attempt `send_json` on the rest, and
collect the ids whose send raised. -/
def broadcastLoop (fails : String → Bool) (exclude : Option String) :
    List String → List String × List String × List String
  | [] => ([], [], [])
  | client_id :: rest =>
      if some client_id = exclude then broadcastLoop fails exclude rest
      else
        let r := broadcastLoop fails exclude rest
        if fails client_id then
          (client_id :: r.1, r.2.1, client_id :: r.2.2)
        else
          (client_id :: r.1, client_id :: r.2.1, r.2.2)

/-- Result of a broadcast pass: which ids were attempted (reached the
`send_json` call), which received the message, which were collected in the
`disconnected` list, and the manager state after the cleanup loop. -/
structure BroadcastResult where
  attempted : List String
  delivered : List String
  disconnected : List String
  state : ManagerState
deriving DecidableEq

/-- `ConnectionManager.broadcast` (main.py lines 52-67): iterate all active
connections skipping `exclude`, collect the ids whose send raised, then —
after the full pass — call `disconnect` on each collected id. -/
def broadcast (st : ManagerState) (fails : String → Bool)
    (exclude : Option String) : BroadcastResult :=
  let r := broadcastLoop fails exclude st.active_connections
  { attempted := r.1, delivered := r.2.1, disconnected := r.2.2,
    state := r.2.2.foldl disconnect st }

/-- Member list of a room as the code reads it: `self.rooms[room]`
(first association-list entry), empty if the room is unknown. -/
def roomMembers (st : ManagerState) (room : String) : List String :=
  ((st.rooms.find? (fun r => r.1 == room)).map Prod.snd).getD []

/-- The `for` loop of `ConnectionManager.broadcast_to_room` (main.py
lines 76-87): skip the excluded id; an id absent from `active_connections` is
collected as disconnected without a send attempt; otherwise attempt the send
and collect it if the send raised. -/
def roomLoop (active : List String) (fails : String → Bool)
    (exclude : Option String) :
    List String → List String × List String × List String
  | [] => ([], [], [])
  | client_id :: rest =>
      if some client_id = exclude then roomLoop active fails exclude rest
      else if client_id ∉ active then
        let r := roomLoop active fails exclude rest
        (r.1, r.2.1, client_id :: r.2.2)
      else
        let r := roomLoop active fails exclude rest
        if fails client_id then
          (client_id :: r.1, r.2.1, client_id :: r.2.2)
        else
          (client_id :: r.1, client_id :: r.2.1, r.2.2)

/-- `ConnectionManager.broadcast_to_room` (main.py lines 69-91): return
unchanged if the room is unknown; otherwise run the pass over the room's
member list and then — the cleanup loop — `discard` each collected id from
this room's member set only.  `active_connections` is never touched. -/
def broadcast_to_room (st : ManagerState) (fails : String → Bool)
    (room : String) (exclude : Option String) : BroadcastResult :=
  match st.rooms.find? (fun r => r.1 == room) with
  | none => { attempted := [], delivered := [], disconnected := [], state := st }
  | some entry =>
      let r := roomLoop st.active_connections fails exclude entry.2
      { attempted := r.1, delivered := r.2.1, disconnected := r.2.2,
        state := { st with
          rooms := st.rooms.map (fun e =>
            if e.1 = room then (e.1, e.2.filter (fun x => x ∉ r.2.2)) else e) } }

/-- `ConnectionManager.join_room` (main.py lines 93-97). -/
def join_room (st : ManagerState) (client_id room : String) : ManagerState :=
  match st.rooms.find? (fun r => r.1 == room) with
  | none => { st with rooms := st.rooms ++ [(room, [client_id])] }
  | some _ =>
      { st with rooms := st.rooms.map (fun e =>
          if e.1 = room then (e.1, if client_id ∈ e.2 then e.2 else e.2 ++ [client_id])
          else e) }

theorem broadcastLoop_eq (fails : String → Bool) (exclude : Option String)
    (l : List String) :
    broadcastLoop fails exclude l
      = (l.filter (fun i => !(decide (some i = exclude))),
         l.filter (fun i => !(decide (some i = exclude)) && !(fails i)),
         l.filter (fun i => !(decide (some i = exclude)) && fails i)) := by
  induction l with
  | nil => rfl
  | cons a rest ih =>
    by_cases hx : some a = exclude
    · simp [broadcastLoop, hx, ih, List.filter_cons]
    · by_cases hf : fails a
      · simp [broadcastLoop, hx, hf, ih, List.filter_cons]
      · simp [broadcastLoop, hx, hf, ih, List.filter_cons]

theorem roomLoop_eq (active : List String) (fails : String → Bool)
    (exclude : Option String) (l : List String) :
    roomLoop active fails exclude l
      = (l.filter (fun i => !(decide (some i = exclude)) && decide (i ∈ active)),
         l.filter (fun i =>
           !(decide (some i = exclude)) && decide (i ∈ active) && !(fails i)),
         l.filter (fun i =>
           !(decide (some i = exclude)) && (!(decide (i ∈ active)) || fails i))) := by
  induction l with
  | nil => rfl
  | cons a rest ih =>
    by_cases hx : some a = exclude
    · simp [roomLoop, hx, ih, List.filter_cons]
    · by_cases ha : a ∈ active
      · by_cases hf : fails a
        · simp [roomLoop, hx, ha, hf, ih, List.filter_cons]
        · simp [roomLoop, hx, ha, hf, ih, List.filter_cons]
      · simp [roomLoop, hx, ha, ih, List.filter_cons]

theorem foldl_disconnect_active (ds : List String) (st : ManagerState) :
    (ds.foldl disconnect st).active_connections
      = st.active_connections.filter (fun x => decide (x ∉ ds)) := by
  induction ds generalizing st with
  | nil => simp
  | cons d ds ih =>
    rw [List.foldl_cons, ih]
    simp only [disconnect]
    rw [List.filter_filter]
    apply List.filter_congr
    intro x _
    by_cases hd : x = d <;> by_cases hm : x ∈ ds <;> simp [hd, hm]

end WS

open SSE WS

/-- C1: for every sequence of appends starting from the empty log, the stored
ids are a consecutive, strictly increasing run ending at the append count
(hence starting at 1 until eviction begins, with no interior gaps), and the
next append assigns exactly previous-max-plus-1 (which is 1 on the empty
log, since the fold of `max` over the empty id list is 0). -/
theorem eventLog_append_assigns_next_id (ps : List String) (p : String) :
    (appendAll ps).event_history.map Event.id
      = List.range' (ps.length + 1 - min ps.length 100) (min ps.length 100)
  ∧ (appendEvent (appendAll ps) p).event_history.getLast?
      = some ⟨((appendAll ps).event_history.map Event.id).foldr max 0 + 1,
              "update", p⟩ := by
  refine ⟨appendAll_ids ps, ?_⟩
  have hmax : ((appendAll ps).event_history.map Event.id).foldr max 0
      = ps.length := by
    rw [appendAll_ids ps]
    cases hn : ps.length with
    | zero => simp
    | succ k =>
      have hm : min (k + 1) 100 = (min (k + 1) 100 - 1) + 1 := by omega
      rw [hm, foldr_max_range']
      omega
  rw [appendEvent_getLast, hmax, appendAll_counter]

/-- C3: the log never holds more than 100 events; once more than 100 appends
have happened an append evicts exactly the oldest entry (strict FIFO) and the
lowest surviving id is the append count minus 99; Scenario B: after 150
appends, `since(0)` returns exactly 100 events with ids 51..150. -/
theorem eventLog_capacity_fifo (ps qs : List String) (p : String)
    (h : 100 < ps.length) :
    (appendAll qs).event_history.length ≤ 100
  ∧ (appendEvent (appendAll ps) p).event_history
      = (appendAll ps).event_history.tail
          ++ [⟨(appendAll ps).event_id_counter + 1, "update", p⟩]
  ∧ ((appendAll ps).event_history.map Event.id).head? = some (ps.length - 99)
  ∧ (sinceLog (appendAll (List.replicate 150 "x")) 0).map Event.id
      = List.range' 51 100
  ∧ (sinceLog (appendAll (List.replicate 150 "x")) 0).length = 100 := by
  have hids : (appendAll (List.replicate 150 "x")).event_history.map Event.id
      = List.range' 51 100 := by
    rw [appendAll_ids]
    norm_num
  have hall : sinceLog (appendAll (List.replicate 150 "x")) 0
      = (appendAll (List.replicate 150 "x")).event_history := by
    apply List.filter_eq_self.2
    intro e he
    have hmem : e.id ∈ List.range' 51 100 := by
      rw [← hids]; exact List.mem_map_of_mem _ he
    rw [List.mem_range'_1] at hmem
    simp only [decide_eq_true_eq]
    omega
  refine ⟨?_, ?_, ?_, ?_, ?_⟩
  · rw [appendAll_length]; omega
  · have hlen : (appendAll ps).event_history.length = 100 := by
      rw [appendAll_length]; omega
    have hne : (appendAll ps).event_history ≠ [] := by
      intro h0; rw [h0] at hlen; simp at hlen
    have hcond : 100 < ((appendAll ps).event_history
        ++ [(⟨(appendAll ps).event_id_counter + 1, "update", p⟩ : Event)]).length := by
      simp [hlen]
    simp only [appendEvent]
    rw [if_pos hcond, List.tail_append_of_ne_nil hne]
  · rw [appendAll_ids]
    have hm : min ps.length 100 = 100 := by omega
    rw [hm]
    have h99 : (100 : Nat) = 99 + 1 := by omega
    rw [h99, List.range'_succ]
    have : ps.length + 1 - 100 = ps.length - 99 := by omega
    simp [this]
  · rw [hall, hids]
  · have hl := congrArg List.length hids
    simp only [List.length_map, List.length_range'] at hl
    rw [hall, hl]

/-- C3 witness: the theorem applied at a concrete 101-append history. -/
theorem eventLog_capacity_fifo_witness :
    100 < (List.replicate 101 "a").length
  ∧ (sinceLog (appendAll (List.replicate 150 "x")) 0).length = 100 := by
  constructor
  · simp
  · exact (eventLog_capacity_fifo (List.replicate 101 "a") [] "b" (by simp)).2.2.2.2

/-- C5: `since(cursor)` returns exactly the stored events with id strictly
above the cursor, in strictly ascending id order, and a cursor below the
whole retention window returns the full retained history (no error).  The
read is a pure function of the log state, so re-reading with the same cursor
before any append trivially yields the same sequence. -/
theorem sinceLog_ascending (ps : List String) (c : Int) (e : Event) :
    (e ∈ sinceLog (appendAll ps) c
        ↔ e ∈ (appendAll ps).event_history ∧ c < (e.id : Int))
  ∧ List.Pairwise (· < ·) ((sinceLog (appendAll ps) c).map Event.id)
  ∧ ((∀ x ∈ (appendAll ps).event_history, c < (x.id : Int)) →
      sinceLog (appendAll ps) c = (appendAll ps).event_history) := by
  refine ⟨?_, ?_, ?_⟩
  · simp [sinceLog, List.mem_filter]
  · have hsub : List.Sublist ((sinceLog (appendAll ps) c).map Event.id)
        ((appendAll ps).event_history.map Event.id) :=
      (List.filter_sublist _).map _
    rw [appendAll_ids] at hsub
    exact List.Pairwise.sublist hsub (List.pairwise_lt_range' _ _)
  · intro hall
    apply List.filter_eq_self.2
    intro a ha
    simpa using hall a ha

/-- C5 witness: the theorem applied at a concrete two-event log. -/
theorem sinceLog_ascending_witness :
    (⟨1, "update", "a"⟩ : Event) ∈ sinceLog (appendAll ["a", "b"]) 0 := by
  exact (sinceLog_ascending ["a", "b"] 0 ⟨1, "update", "a"⟩).1.2 (by decide)

set_option maxRecDepth 4000 in
/-- C7 counterexample: Scenario C claims that after replaying 96..100 and
emitting the connected event the newly generated ids start at 101; in fact
the synthetic connected event itself consumes id 101 (the id counter is
global and the connected event is not stored), so the first newly generated
live event has id 102. -/
theorem scenarioC_first_live_id_is_102 :
    (sessionOpen (appendAll (List.replicate 100 "p")) (some "95")).1
      = (List.range' 96 5).map (fun i => Frame.event i "update" "p")
          ++ [Frame.event 101 "connected" "Connected to SSE stream"]
  ∧ (liveTick (sessionOpen (appendAll (List.replicate 100 "p")) (some "95")).2 "q").1
      = [Frame.event 102 "update" "q"] := by decide

set_option maxRecDepth 4000 in
/-- C7 as amended: a session opened with cursor 95 on a log holding ids
1..100 yields ids 96..100 in order, then a synthetic connected event with
fresh id 101, and the newly generated live events start at id 102. -/
theorem scenarioC_replay_then_live :
    (sessionRun (appendAll (List.replicate 100 "p")) (some "95") ["q1", "q2"]).1
      = (List.range' 96 5).map (fun i => Frame.event i "update" "p")
        ++ [Frame.event 101 "connected" "Connected to SSE stream",
            Frame.event 102 "update" "q1", Frame.event 103 "update" "q2"] := by decide

/-- C9 counterexample: in a session opened on the fresh log, the keep-alive
comment follows the 14th periodic event (id 15), and the 15th periodic event
(id 16) is the final yielded frame with no keep-alive after it — so it is not
the session's every-15th periodic event that is followed by a keep-alive. -/
theorem heartbeat_not_every_15th_session_event :
    (sessionRun initLog none (List.replicate 15 "x")).1
      = Frame.event 1 "connected" "Connected to SSE stream"
          :: (List.range' 2 14).map (fun i => Frame.event i "update" "x")
          ++ [Frame.comment " heartbeat", Frame.event 16 "update" "x"] := by decide

/-- C9 as amended: a live tick yields its update frame followed by a
keep-alive comment exactly when the id it assigned (the global counter,
which is also advanced by connected events) is divisible by 15 — not on
every 15th periodic event of the session. -/
theorem liveTick_heartbeat_iff (st : LogState) (p : String) :
    (liveTick st p).1
      = Frame.event (st.event_id_counter + 1) "update" p
          :: (if (st.event_id_counter + 1) % 15 = 0
              then [Frame.comment " heartbeat"] else []) := by
  by_cases h : (st.event_id_counter + 1) % 15 = 0 <;>
    simp [liveTick, appendEvent, h]

/-- C10: a supplied cursor string that does not parse as an integer causes no
replay at all (the ValueError is swallowed) and the session opening is
exactly what it would have been with no cursor supplied. -/
theorem invalidCursor_noReplay (st : LogState) (s : String)
    (h : parsePyInt s = none) :
    replayEvents st (some s) = []
  ∧ sessionOpen st (some s) = sessionOpen st none := by
  have hr : replayEvents st (some s) = [] := by
    by_cases he : s = "" <;> simp [replayEvents, he, h]
  refine ⟨hr, ?_⟩
  simp [sessionOpen, hr, replayEvents, h]

/-- C10 witness: the theorem applied to the unparseable cursor string
"abc" on a one-event log. -/
theorem invalidCursor_noReplay_witness :
    parsePyInt "abc" = none
  ∧ replayEvents (appendAll ["a"]) (some "abc") = []
  ∧ sessionOpen (appendAll ["a"]) (some "abc") = sessionOpen (appendAll ["a"]) none := by
  refine ⟨by decide, ?_, ?_⟩
  · exact (invalidCursor_noReplay (appendAll ["a"]) "abc" (by decide)).1
  · exact (invalidCursor_noReplay (appendAll ["a"]) "abc" (by decide)).2

/-- C4: a global broadcast attempts delivery to every non-excluded connection
present at call time; the ids whose send raised are only collected during the
pass; every other (non-excluded, non-failing) target receives the message;
and each dead id is unregistered exactly once (the collected list has no
duplicates), only after the full pass, by the cleanup loop. -/
theorem broadcast_deferred_cleanup (st : ManagerState) (fails : String → Bool)
    (exclude : Option String) (h : st.active_connections.Nodup) :
    (broadcast st fails exclude).attempted
        = st.active_connections.filter (fun i => !(decide (some i = exclude)))
  ∧ (broadcast st fails exclude).delivered
        = st.active_connections.filter
            (fun i => !(decide (some i = exclude)) && !(fails i))
  ∧ (broadcast st fails exclude).disconnected
        = st.active_connections.filter
            (fun i => !(decide (some i = exclude)) && fails i)
  ∧ (broadcast st fails exclude).disconnected.Nodup
  ∧ (broadcast st fails exclude).state.active_connections
        = st.active_connections.filter
            (fun i => decide (i ∉ (broadcast st fails exclude).disconnected)) := by
  have hloop := broadcastLoop_eq fails exclude st.active_connections
  refine ⟨?_, ?_, ?_, ?_, ?_⟩
  · simp [broadcast, hloop]
  · simp [broadcast, hloop]
  · simp [broadcast, hloop]
  · simp only [broadcast, hloop]
    exact h.filter _
  · simp only [broadcast, hloop]
    rw [foldl_disconnect_active]

/-- C4 witness: the theorem applied to three connections where the send to
"b" fails: after the pass "b" is gone from the registry. -/
theorem broadcast_deferred_cleanup_witness :
    (["a", "b", "c"] : List String).Nodup
  ∧ (broadcast ⟨["a", "b", "c"], []⟩ (fun i => i == "b") none).state.active_connections
      = ["a", "c"] := by
  refine ⟨by decide, ?_⟩
  have h := broadcast_deferred_cleanup ⟨["a", "b", "c"], []⟩
    (fun i => i == "b") none (by decide)
  exact h.2.2.2.2.trans (by decide)

/-- C6: with an exclusion X, X never receives a delivery attempt; with no
exclusion, every connection present at call time — the sender included, if
registered — gets a delivery attempt, and when no transport fails the
message is delivered to all of them. -/
theorem broadcast_exclusion (st : ManagerState) (fails : String → Bool)
    (X : String) :
    X ∉ (broadcast st fails (some X)).attempted
  ∧ (broadcast st fails none).attempted = st.active_connections
  ∧ ((∀ i ∈ st.active_connections, fails i = false) →
      (broadcast st fails none).delivered = st.active_connections) := by
  refine ⟨?_, ?_, ?_⟩
  · simp [broadcast, broadcastLoop_eq, List.mem_filter]
  · simp only [broadcast, broadcastLoop_eq]
    apply List.filter_eq_self.2
    intro a _
    simp
  · intro hf
    simp only [broadcast, broadcastLoop_eq]
    apply List.filter_eq_self.2
    intro a ha
    simp [hf a ha]

/-- C6 witness: the theorem applied to two healthy connections with sender
"a": excluded "a" gets no attempt, and an exclusion-free broadcast delivers
to both connections, "a" included. -/
theorem broadcast_exclusion_witness :
    "a" ∉ (broadcast ⟨["a", "b"], []⟩ (fun _ => false) (some "a")).attempted
  ∧ (broadcast ⟨["a", "b"], []⟩ (fun _ => false) none).delivered = ["a", "b"] := by
  have h := broadcast_exclusion ⟨["a", "b"], []⟩ (fun _ => false) "a"
  exact ⟨h.1, h.2.2 (fun i _ => rfl)⟩

/-- C2 counterexample: a room broadcast over room "r" with members "a","b" in
which the send to "b" fails reports "b" dead, yet after the pass "b" is still
present in `active_connections` — the dead id is not unregistered globally,
contradicting the claim (and Scenario D as applied to room broadcast). -/
theorem roomDead_remains_registered :
    "b" ∈ (broadcast_to_room ⟨["a", "b"], [("r", ["a", "b"])]⟩
        (fun i => i == "b") "r" none).disconnected
  ∧ (broadcast_to_room ⟨["a", "b"], [("r", ["a", "b"])]⟩
        (fun i => i == "b") "r" none).state.active_connections = ["a", "b"] := by
  decide

/-- C2 as amended: every id that reports dead during a room broadcast is,
after the pass, discarded from that room's member set, but the pass performs
no global unregistration — `active_connections` is returned unchanged. -/
theorem broadcastRoom_discards_locally (st : ManagerState) (fails : String → Bool)
    (room : String) (exclude : Option String) :
    (broadcast_to_room st fails room exclude).state.active_connections
        = st.active_connections
  ∧ ∀ d ∈ (broadcast_to_room st fails room exclude).disconnected,
      d ∉ roomMembers (broadcast_to_room st fails room exclude).state room := by
  cases hfind : st.rooms.find? (fun r => r.1 == room) with
  | none =>
      constructor
      · simp [broadcast_to_room, hfind]
      · intro d hd
        simp [broadcast_to_room, hfind] at hd
  | some entry =>
      have hroomname : entry.1 = room := by
        have := List.find?_some hfind
        simpa using this
      have hcomp : ((fun r : String × List String => r.1 == room) ∘
          (fun e : String × List String =>
            if e.1 = room then
              (e.1, e.2.filter (fun x =>
                x ∉ (roomLoop st.active_connections fails exclude entry.2).2.2))
            else e))
          = fun r : String × List String => r.1 == room := by
        funext e
        by_cases h1 : e.1 = room <;> simp [h1]
      constructor
      · simp [broadcast_to_room, hfind]
      · intro d hd
        simp only [broadcast_to_room, hfind] at hd ⊢
        unfold roomMembers
        rw [List.find?_map, hcomp, hfind]
        simp only [Option.map_some', Option.getD_some, if_pos hroomname]
        simp only [List.mem_filter, decide_eq_true_eq]
        rintro ⟨-, hnd⟩
        exact hnd hd

/-- C2 witness: the amended theorem at a concrete room state. -/
theorem broadcastRoom_discards_locally_witness :
    (broadcast_to_room ⟨["a", "b"], [("r", ["a", "b"])]⟩
        (fun i => i == "b") "r" none).state.active_connections = ["a", "b"] :=
  (broadcastRoom_discards_locally ⟨["a", "b"], [("r", ["a", "b"])]⟩
      (fun i => i == "b") "r" none).1

/-- C8 counterexample: a personal send to a registered id whose transport
fails ends in the `send_json` exception propagating to the caller (outcome
`raised`), not in a `dead` result as the claim states. -/
theorem sendPersonal_raises_counterexample :
    (send_personal_message ⟨["a"], []⟩ (fun _ => true) "a").1 = SendOutcome.raised
  ∧ SendOutcome.raised ≠ SendOutcome.dead := by decide

/-- C8 as amended: `send_personal_message` never mutates the Registry or the
Room Index (the state is returned unchanged in every case); on a failing
transport for a registered id the exception propagates through the caller
(no `dead` result is reported), and an unregistered id is silently a no-op. -/
theorem sendPersonal_no_cleanup (st : ManagerState) (fails : String → Bool)
    (cid : String) :
    (send_personal_message st fails cid).2 = st
  ∧ (cid ∈ st.active_connections → fails cid = true →
      (send_personal_message st fails cid).1 = SendOutcome.raised)
  ∧ (cid ∉ st.active_connections →
      (send_personal_message st fails cid).1 = SendOutcome.skipped) := by
  by_cases hm : cid ∈ st.active_connections <;> by_cases hf : fails cid <;>
    simp [send_personal_message, hm, hf]

/-- C8 witness: the amended theorem at a concrete failing send. -/
theorem sendPersonal_no_cleanup_witness :
    (send_personal_message ⟨["a"], []⟩ (fun _ => true) "a").2
      = (⟨["a"], []⟩ : ManagerState)
  ∧ (send_personal_message ⟨["a"], []⟩ (fun _ => true) "a").1
      = SendOutcome.raised := by
  have h := sendPersonal_no_cleanup ⟨["a"], []⟩ (fun _ => true) "a"
  exact ⟨h.1, h.2.1 (by decide) rfl⟩
